import Mathlib

/-!
Shallow embedding of the hero-snapshot pipeline (src/script.js).

JS conventions modelled here:
* object-property lookup that can miss (`ITEM_IDS[iid]`, `ITEM_CONSTANTS[name]`)
  is a function into `Option`;
* `undefined` array reads (`objectList[i]` past the end) are `List.get?`;
* `String.prototype.includes` is substring containment over the char list;
* `Array.prototype.sort` with comparator `second[1] - first[1]` is the stable
  descending sort by count, modelled by insertion sort (stable by construction);
* `Math.random()` is an explicit rational parameter `r` with `0 ≤ r < 1`;
* `Number.prototype.toFixed(2)` is the integer of hundredths, rounding
  half-up, with NaN / Infinity as explicit constructors.
-/

namespace DotaSnapshot

/-- JS `s.includes(sub)` on char lists: `sub` occurs contiguously in `hay`. -/
def hasSub (sub : List Char) : List Char → Bool
  | [] => sub.isEmpty
  | c :: rest => sub.isPrefixOf (c :: rest) || hasSub sub rest

/-- JS `s.includes(sub)` for strings. -/
def jsIncludes (s sub : String) : Bool :=
  hasSub sub.data s.data

/-- JS `s.toLowerCase()` (ASCII case folding, as `Char.toLower`). -/
def toLowerStr (s : String) : String :=
  String.mk (s.data.map Char.toLower)

/-- JS `s.trim()`: strip whitespace from both ends. -/
def trimStr (s : String) : String :=
  String.mk (((s.data.dropWhile Char.isWhitespace).reverse.dropWhile
    Char.isWhitespace).reverse)

/-- JS `s.slice(14, s.length)`: drop the fixed `npc_dota_hero_` namespace
prefix (14 characters). -/
def sliceFrom14 (s : String) : String :=
  String.mk (s.data.drop 14)

/-- One entry of `ITEM_CONSTANTS`: the fields of an item record the pipeline
reads (`id`, `img`, `components`).  `components := none` models a missing or
`null` field (both JS-falsy); `components := some l` models a present list,
which is JS-truthy even when `l` is empty. -/
structure Item where
  id : Nat
  img : String
  components : Option (List String)
deriving DecidableEq, Repr

/-- The read-only reference cache: `ITEM_IDS` (id → internal name) and
`ITEM_CONSTANTS` (internal name → item record), with `none` for a missing
key (JS `undefined`). -/
structure Env where
  item_ids : Nat → Option String
  item_constants : String → Option Item

/-- One entry of `HERO_STATS`: identity fields plus the per-bracket pick and
win counters `1_pick .. 8_pick`, `1_win .. 8_win` (indexed here by `Fin 8`). -/
structure Hero where
  id : Nat
  name : String
  localized_name : String
  primary_attr : String
  pick : Fin 8 → Nat
  win : Fin 8 → Nat

/-- The match test of `GetHero`'s main branch: the lower-cased localized name
contains the query, or the internal name with its 14-character prefix removed
contains the query. -/
def heroMatches (query : String) (hero : Hero) : Bool :=
  jsIncludes (toLowerStr hero.localized_name) query ||
    jsIncludes (sliceFrom14 hero.name) query

/-- `GetHero` (script.js:82-97): walk `HERO_STATS` in order; skip any hero
whose localized name is not exactly "io" when the query is "io"; return the
first hero passing `heroMatches`, else `null`. -/
def GetHero (query : String) : List Hero → Option Hero
  | [] => none
  | hero :: rest =>
    if query == "io" && toLowerStr hero.localized_name != "io" then
      GetHero query rest
    else if heroMatches query hero then some hero
    else GetHero query rest

/-- Stable insertion used to model the sort in `SortItems`: the comparator
`second[1] - first[1]` orders by count descending, and JS `Array.sort` is
stable, so an element `p` (earlier in the original order) goes in front of
the first already-placed `q` with `q.2 ≤ p.2`. -/
def insertByCount (p : Nat × Nat) : List (Nat × Nat) → List (Nat × Nat)
  | [] => [p]
  | q :: qs => if q.2 ≤ p.2 then p :: q :: qs else q :: insertByCount p qs

/-- `SortItems` (script.js:115-128): the (id, count) pairs of the phase
mapping, in the mapping's iteration order, stably sorted by count
descending. -/
def SortItems (l : List (Nat × Nat)) : List (Nat × Nat) :=
  l.foldr insertByCount []

/-- The two-stage lookup inside `GetItems`: `ITEM_IDS[iid]` then
`ITEM_CONSTANTS[item_name]`; `undefined` at either stage is `none`. -/
def resolveId (env : Env) (iid : Nat) : Option Item :=
  match env.item_ids iid with
  | none => none
  | some nm => env.item_constants nm

/-- `GetItems` (script.js:100-112): resolve each pair's id and keep the
records that resolved (`item_obj != undefined`), preserving order. -/
def GetItems (env : Env) (itemIds : List (Nat × Nat)) : List Item :=
  itemIds.filterMap (fun pair => resolveId env pair.1)

/-- The filter callback in `MostBought` (script.js:138-142): keep when the id
is one of 1, 41, 609, or when `item['components']` is truthy (present list,
possibly empty). -/
def itemFilter (item : Item) : Bool :=
  [1, 41, 609].contains item.id || item.components.isSome

/-- The padding loop of `MostBought` (script.js:145-147):
`for (let i = 0; filteredItems.length < 5; i++) filteredItems.push(objectList[i])`.
Out-of-range reads push `undefined` (`none`). -/
def padLoop (objectList : List Item) (acc : List (Option Item)) (i : Nat) :
    List (Option Item) :=
  if h : acc.length < 5 then
    padLoop objectList (acc ++ [objectList.get? i]) (i + 1)
  else acc
termination_by 5 - acc.length
decreasing_by simp; omega

/-- Step 1+2 of the pipeline for one phase: `GetItems(SortItems(stats[period]))`,
the pre-filter resolved sequence (`objectList` in the source). -/
def objectListOf (env : Env) (periodItems : List (Nat × Nat)) : List Item :=
  GetItems env (SortItems periodItems)

/-- Step 3: the filtered sequence (`filteredItems` before padding). -/
def filteredOf (env : Env) (periodItems : List (Nat × Nat)) : List Item :=
  (objectListOf env periodItems).filter itemFilter

/-- `MostBought` (script.js:132-150) for one phase payload: filter, then run
the padding loop.  Entries are `Option Item`: `some` for real records,
`none` for `undefined` pushed by an out-of-range read. -/
def MostBought (env : Env) (periodItems : List (Nat × Nat)) :
    List (Option Item) :=
  padLoop (objectListOf env periodItems)
    ((filteredOf env periodItems).map some) 0

/-- The per-phase output of `MostBoughtItems` (script.js:161-163):
`MostBought(...).slice(0, 5)`. -/
def MostBoughtPhase (env : Env) (periodItems : List (Nat × Nat)) :
    List (Option Item) :=
  (MostBought env periodItems).take 5

/-- Step 2 of the pipeline annotated with the surviving (id, count) pairs;
projecting away the pair gives `GetItems` on the same input.  Used to talk
about the purchase count attached to each resolved record. -/
def resolvedPairs (env : Env) (l : List (Nat × Nat)) :
    List ((Nat × Nat) × Item) :=
  l.filterMap (fun p => (resolveId env p.1).map (fun it => (p, it)))

/-- The filtered sequence annotated with (id, count) pairs. -/
def filteredPairs (env : Env) (periodItems : List (Nat × Nat)) :
    List ((Nat × Nat) × Item) :=
  (resolvedPairs env (SortItems periodItems)).filter (fun x => itemFilter x.2)

/-- Total picks of a hero: the sum of `1_pick .. 8_pick`
(the `picks.reduce` of script.js:188). -/
def sumPicks (h : Hero) : Nat :=
  (List.ofFn h.pick).sum

/-- Total wins of a hero: the sum of `1_win .. 8_win`. -/
def sumWins (h : Hero) : Nat :=
  (List.ofFn h.win).sum

/-- Result of `winrate.toFixed(2)`: either the non-numeric JS values
(`"NaN"`, `"Infinity"`) or the rounded number carried as an integer count of
hundredths. -/
inductive FixedOutput where
  | nan : FixedOutput
  | infinity : FixedOutput
  | fixed : ℤ → FixedOutput
deriving DecidableEq, Repr

/-- `x.toFixed(2)` for a finite non-negative value: the nearest integer to
`100 * x`, ties rounded up (the ECMAScript rule picks the larger candidate). -/
def toFixed2 (x : ℚ) : ℤ :=
  ⌊x * 100 + 1 / 2⌋

/-- `WinRate` (script.js:180-194): sum the 8 bracket counters, compute
`(sum_wins / sum_picks) * 100`, and format with `toFixed(2)`.  When
`sum_picks = 0` JS division yields `NaN` (`0 / 0`) or `Infinity`
(positive `/ 0`), which `toFixed` renders as the non-numeric strings. -/
def WinRate (h : Hero) : FixedOutput :=
  if sumPicks h = 0 then
    if sumWins h = 0 then FixedOutput.nan else FixedOutput.infinity
  else
    FixedOutput.fixed (toFixed2 (((sumWins h : ℚ) / (sumPicks h : ℚ)) * 100))

/-- `RandomIntFromInterval` (script.js:175-177):
`Math.floor(Math.random() * (max - min + 1) + min)` with `Math.random() = r`. -/
def RandomIntFromInterval (lo hi : ℤ) (r : ℚ) : ℤ :=
  ⌊r * ((hi : ℚ) - (lo : ℚ) + 1) + (lo : ℚ)⌋

/-- The index `RandomHero` (script.js:265) feeds into `HERO_STATS`:
`RandomIntFromInterval(0, HERO_STATS.length)`. -/
def RandomHeroIndex (stats : List Hero) (r : ℚ) : ℤ :=
  RandomIntFromInterval 0 (stats.length : ℤ) r

/-- The element read by `HERO_STATS[RandomIntFromInterval(0, HERO_STATS.length)]`;
`none` is the `undefined` produced by reading past the end of the roster. -/
def RandomHeroTarget (stats : List Hero) (r : ℚ) : Option Hero :=
  stats.get? (RandomHeroIndex stats r).toNat

/-- The hero-resolution outcome of `UpdatePage` (script.js:209): the resolved
hero, or `none` when `GetHero` found nothing (the alert branch). -/
def UpdatePage (heroName : String) (stats : List Hero) : Option Hero :=
  GetHero heroName stats

/-- `RandomHero` (script.js:261-269): pick `HERO_STATS[index]`, take
`name.slice(14)` as the query, and run `UpdatePage`.  The outer `none` is
the crash when the random index read `undefined`. -/
def RandomHero (stats : List Hero) (r : ℚ) : Option (Option Hero) :=
  (RandomHeroTarget stats r).map
    (fun target => UpdatePage (sliceFrom14 target.name) stats)

/-- `SearchHero` (script.js:250-258): lower-case and trim the input; an empty
result runs `RandomHero`, anything else runs `UpdatePage` on it. -/
def SearchHero (input : String) (stats : List Hero) (r : ℚ) :
    Option (Option Hero) :=
  let heroName := trimStr (toLowerStr input)
  if heroName = "" then RandomHero stats r
  else some (UpdatePage heroName stats)

/-! ### Concrete fixtures for witnesses and counterexamples -/

/-- A consumable with an always-interesting id and no components. -/
def itemA : Item := ⟨1, "a.png", none⟩

/-- A filler item: ordinary id, no components. -/
def itemB : Item := ⟨2, "b.png", none⟩

/-- A reference cache with two resolvable ids (10 and 11). -/
def env0 : Env :=
  { item_ids := fun iid =>
      if iid = 10 then some "itA" else if iid = 11 then some "itB" else none,
    item_constants := fun nm =>
      if nm = "itA" then some itemA else if nm = "itB" then some itemB
      else none }

/-- A phase payload whose resolvable pool has only 2 members. -/
def pairs0 : List (Nat × Nat) := [(10, 5), (11, 3)]

/-- Items for a 5-member pool: ids 1 and 41 and a recipe item pass the
filter, the other two are dropped. -/
def item1 : Item := ⟨1, "i1.png", none⟩

/-- A recipe-built item (non-empty components). -/
def item2 : Item := ⟨2, "i2.png", some ["x", "y"]⟩

/-- A filler item that the filter drops. -/
def item3 : Item := ⟨3, "i3.png", none⟩

/-- An item with the always-interesting id 41. -/
def item4 : Item := ⟨41, "i4.png", none⟩

/-- Another filler item that the filter drops. -/
def item5 : Item := ⟨5, "i5.png", none⟩

/-- A reference cache resolving ids 101..105 to the five items above. -/
def env1 : Env :=
  { item_ids := fun iid =>
      if iid = 101 then some "n1" else if iid = 102 then some "n2"
      else if iid = 103 then some "n3" else if iid = 104 then some "n4"
      else if iid = 105 then some "n5" else none,
    item_constants := fun nm =>
      if nm = "n1" then some item1 else if nm = "n2" then some item2
      else if nm = "n3" then some item3 else if nm = "n4" then some item4
      else if nm = "n5" then some item5 else none }

/-- A phase payload with a 5-member resolvable pool. -/
def pairs1 : List (Nat × Nat) := [(101, 10), (102, 20), (103, 15), (104, 5), (105, 1)]

/-- An item whose `components` field is a present but empty list: JS-truthy,
so the filter keeps it, although the list is not non-empty. -/
def badComp : Item := ⟨7, "bad.png", some []⟩

/-- A reference cache resolving id 20 to `badComp`. -/
def env2 : Env :=
  { item_ids := fun iid => if iid = 20 then some "bd" else none,
    item_constants := fun nm => if nm = "bd" then some badComp else none }

/-- A one-member payload resolving to `badComp`. -/
def pairs2 : List (Nat × Nat) := [(20, 4)]

/-- A hero whose bracket counters sum to 1000 picks and 530 wins
(the Anti-Mage-shaped scenario of the spec, §8). -/
def axeHero : Hero :=
  ⟨2, "npc_dota_hero_axe", "Axe", "str",
    fun _ => 125, fun i => if i = 7 then 68 else 66⟩

/-- The hero named Io (internal name without "io" in its stripped form). -/
def ioHero : Hero :=
  ⟨91, "npc_dota_hero_wisp", "Io", "all", fun _ => 10, fun _ => 5⟩

/-- A hero whose names contain "io" as a mere substring. -/
def gyroHero : Hero :=
  ⟨72, "npc_dota_hero_gyrocopter", "Gyrocopter", "agi",
    fun _ => 1, fun _ => 0⟩

/-- A hero with all bracket counters zero. -/
def zeroHero : Hero :=
  ⟨0, "npc_dota_hero_zero", "Zero", "str", fun _ => 0, fun _ => 0⟩

/-- A small roster in load order. -/
def sampleRoster : List Hero := [gyroHero, axeHero, ioHero]

/-! ### Helper lemmas: the padding loop -/

/-- The padding loop appends `objectList[i], objectList[i+1], ...` until the
accumulator reaches length 5 (no iterations when it is already ≥ 5). -/
theorem padLoop_eq_of_le (ol : List Item) :
    ∀ (n : Nat) (acc : List (Option Item)) (i : Nat), 5 - acc.length ≤ n →
      padLoop ol acc i =
        acc ++ (List.range (5 - acc.length)).map (fun k => ol.get? (i + k)) := by
  intro n
  induction n with
  | zero =>
    intro acc i hle
    have h5 : ¬ acc.length < 5 := by omega
    rw [padLoop, dif_neg h5]
    have : 5 - acc.length = 0 := by omega
    simp [this]
  | succ n ih =>
    intro acc i hle
    by_cases h5 : acc.length < 5
    · rw [padLoop, dif_pos h5]
      rw [ih (acc ++ [ol.get? i]) (i + 1) (by simp; omega)]
      simp only [List.length_append, List.length_singleton]
      have hm : 5 - acc.length = (5 - (acc.length + 1)) + 1 := by omega
      rw [hm, List.range_succ_eq_map, List.map_cons, List.map_map]
      have hfun : (fun k => ol.get? (i + k)) ∘ Nat.succ =
          fun k => ol.get? (i + 1 + k) := by
        funext k
        simp only [Function.comp_apply, Nat.succ_eq_add_one]
        congr 1
        omega
      rw [hfun]
      simp
    · rw [padLoop, dif_neg h5]
      have : 5 - acc.length = 0 := by omega
      simp [this]

/-- The padding loop, characterised without the step index. -/
theorem padLoop_spec (ol : List Item) (acc : List (Option Item)) (i : Nat) :
    padLoop ol acc i =
      acc ++ (List.range (5 - acc.length)).map (fun k => ol.get? (i + k)) :=
  padLoop_eq_of_le ol (5 - acc.length) acc i le_rfl

/-- `MostBought` in closed form: the filtered sequence, then reads
`objectList[0], objectList[1], ...` until length 5. -/
theorem MostBought_closed (env : Env) (pairs : List (Nat × Nat)) :
    MostBought env pairs =
      (filteredOf env pairs).map some ++
        (List.range (5 - (filteredOf env pairs).length)).map
          (fun k => (objectListOf env pairs).get? k) := by
  rw [MostBought, padLoop_spec]
  simp

/-! ### Helper lemmas: the stable descending sort -/

/-- Unfolding `SortItems` one step. -/
theorem SortItems_cons (x : Nat × Nat) (xs : List (Nat × Nat)) :
    SortItems (x :: xs) = insertByCount x (SortItems xs) := rfl

/-- Membership through `insertByCount`. -/
theorem mem_insertByCount (p x : Nat × Nat) :
    ∀ (l : List (Nat × Nat)), (x ∈ insertByCount p l ↔ x = p ∨ x ∈ l)
  | [] => by simp [insertByCount]
  | q :: qs => by
    by_cases h : q.2 ≤ p.2
    · simp [insertByCount, h]
    · simp only [insertByCount, if_neg h, List.mem_cons,
        mem_insertByCount p x qs]
      tauto

/-- Inserting into a descending-by-count list keeps it descending. -/
theorem insertByCount_pairwise (p : Nat × Nat) :
    ∀ {l : List (Nat × Nat)}, l.Pairwise (fun a b => b.2 ≤ a.2) →
      (insertByCount p l).Pairwise (fun a b => b.2 ≤ a.2)
  | [], _ => by simp [insertByCount]
  | q :: qs, h => by
    rcases List.pairwise_cons.1 h with ⟨hq, hqs⟩
    by_cases hle : q.2 ≤ p.2
    · rw [insertByCount, if_pos hle]
      refine List.pairwise_cons.2 ⟨?_, h⟩
      intro b hb
      rcases List.mem_cons.1 hb with rfl | hb
      · exact hle
      · exact le_trans (hq b hb) hle
    · rw [insertByCount, if_neg hle]
      refine List.pairwise_cons.2 ⟨?_, insertByCount_pairwise p hqs⟩
      intro b hb
      rcases (mem_insertByCount p b qs).1 hb with rfl | hb
      · omega
      · exact hq b hb

/-- `SortItems` output is descending by count. -/
theorem SortItems_pairwise (l : List (Nat × Nat)) :
    (SortItems l).Pairwise (fun a b => b.2 ≤ a.2) := by
  induction l with
  | nil => simp [SortItems]
  | cons x xs ih =>
    rw [SortItems_cons]
    exact insertByCount_pairwise x ih

/-- The entries of a fixed count survive `insertByCount` in order: the
inserted pair lands in front of the tied block exactly when it was earlier
(elements skipped on the way in have strictly larger counts). -/
theorem insertByCount_filter (p : Nat × Nat) (c : Nat) :
    ∀ (l : List (Nat × Nat)),
      (insertByCount p l).filter (fun q => q.2 == c) =
        (if p.2 == c then [p] else []) ++ l.filter (fun q => q.2 == c)
  | [] => by
    by_cases hp : p.2 = c <;> simp [insertByCount, List.filter_cons, hp]
  | q :: qs => by
    rw [insertByCount]
    by_cases hle : q.2 ≤ p.2
    · rw [if_pos hle]
      by_cases hp : p.2 = c <;> simp [List.filter_cons, hp]
    · rw [if_neg hle]
      rw [List.filter_cons, insertByCount_filter p c qs]
      by_cases hq : q.2 = c
      · by_cases hp : p.2 = c
        · omega
        · simp [List.filter_cons, hq, hp]
      · by_cases hp : p.2 = c
        · simp [List.filter_cons, hq, hp]
        · simp [List.filter_cons, hq, hp]

/-- Stability of `SortItems`: within any one purchase count, the sorted list
keeps the original iteration order of the phase mapping. -/
theorem SortItems_stable (l : List (Nat × Nat)) (c : Nat) :
    (SortItems l).filter (fun q => q.2 == c) = l.filter (fun q => q.2 == c) := by
  induction l with
  | nil => rfl
  | cons x xs ih =>
    rw [SortItems_cons, insertByCount_filter x c (SortItems xs), ih,
      List.filter_cons]
    by_cases hp : x.2 = c <;> simp [hp]

/-! ### Helper lemmas: annotated resolution -/

/-- Dropping the annotation from `resolvedPairs` gives `GetItems`. -/
theorem resolvedPairs_map_snd (env : Env) :
    ∀ (l : List (Nat × Nat)), (resolvedPairs env l).map Prod.snd = GetItems env l
  | [] => rfl
  | p :: ps => by
    rw [resolvedPairs, GetItems, List.filterMap_cons, List.filterMap_cons]
    have ih := resolvedPairs_map_snd env ps
    rw [resolvedPairs, GetItems] at ih
    cases h : resolveId env p.1 with
    | none => simpa using ih
    | some it => simp [ih]

/-- An annotated record's pair comes from the input list. -/
theorem mem_resolvedPairs {env : Env} {x : (Nat × Nat) × Item}
    {l : List (Nat × Nat)} (hx : x ∈ resolvedPairs env l) : x.1 ∈ l := by
  rcases List.mem_filterMap.1 hx with ⟨a, ha, hfa⟩
  cases h : resolveId env a.1 with
  | none => rw [h] at hfa; simp at hfa
  | some it =>
    rw [h] at hfa
    simp only [Option.map_some', Option.some.injEq] at hfa
    rw [← hfa]
    exact ha

/-- A pairwise relation on the pairs transfers along `resolvedPairs`. -/
theorem resolvedPairs_pairwise {R : (Nat × Nat) → (Nat × Nat) → Prop}
    (env : Env) :
    ∀ {l : List (Nat × Nat)}, l.Pairwise R →
      (resolvedPairs env l).Pairwise (fun a b => R a.1 b.1)
  | [], _ => by simp [resolvedPairs]
  | p :: ps, h => by
    rcases List.pairwise_cons.1 h with ⟨hp, hps⟩
    have ih := resolvedPairs_pairwise (R := R) env hps
    rw [resolvedPairs, List.filterMap_cons]
    cases hr : resolveId env p.1 with
    | none => exact ih
    | some it =>
      refine List.pairwise_cons.2 ⟨?_, ih⟩
      intro b hb
      exact hp b.1 (mem_resolvedPairs hb)

/-- Dropping the annotation from `filteredPairs` gives the filtered
sequence of the pipeline. -/
theorem filteredPairs_map_snd (env : Env) (pairs : List (Nat × Nat)) :
    (filteredPairs env pairs).map Prod.snd = filteredOf env pairs := by
  rw [filteredPairs, filteredOf, objectListOf,
    ← resolvedPairs_map_snd env (SortItems pairs), List.filter_map]
  rfl

/-- The filtered annotated sequence is descending by purchase count. -/
theorem filteredPairs_pairwise (env : Env) (pairs : List (Nat × Nat)) :
    (filteredPairs env pairs).Pairwise (fun a b => b.1.2 ≤ a.1.2) := by
  have h2 := resolvedPairs_pairwise (R := fun a b => b.2 ≤ a.2) env
    (SortItems_pairwise pairs)
  exact h2.filter _

/-- The filtered sequence is never longer than the pre-filter pool. -/
theorem filteredOf_length_le (env : Env) (pairs : List (Nat × Nat)) :
    (filteredOf env pairs).length ≤ (objectListOf env pairs).length := by
  rw [filteredOf]
  exact (List.filter_sublist _).length_le

/-! ### Claim theorems -/

/-- C2 counterexample: the padding loop does not skip duplicates.  With the
2-member pool of `env0`/`pairs0` the filtered sequence is `[itemA]`, and the
very first padding entry (position 1, right after the filtered portion) is
`objectList[0] = itemA` again — a padding entry duplicating an item already
present in the filtered portion. -/
theorem C2_padding_duplicates_counterexample :
    filteredOf env0 pairs0 = [itemA] ∧
    MostBought env0 pairs0 =
      [some itemA, some itemA, some itemB, none, none] := by
  constructor
  · decide
  · rw [MostBought_closed]
    decide

/-- C2 amended: when the filtered sequence has fewer than 5 entries the loop
appends `objectList[0], objectList[1], ...` — the pre-filter resolved
sequence from its start, in order — until 5 entries are present, WITHOUT
skipping entries already present in the filtered portion (so padding entries
can duplicate filtered ones, and reads past the pool are `undefined`). -/
theorem C2_padding_from_pool_start (env : Env) (pairs : List (Nat × Nat)) :
    MostBought env pairs =
      (filteredOf env pairs).map some ++
        (List.range (5 - (filteredOf env pairs).length)).map
          (fun k => (objectListOf env pairs).get? k) :=
  MostBought_closed env pairs

/-- C7 counterexample: an item whose `components` is a present but empty
list is kept by the filter (JS truthiness), although it has none of the
three always-interesting ids and its components list is not non-empty. -/
theorem C7_empty_components_kept_counterexample :
    badComp ∈ filteredOf env2 pairs2 ∧
    ¬ (badComp.id = 1 ∨ badComp.id = 41 ∨ badComp.id = 609 ∨
        ∃ l, badComp.components = some l ∧ l ≠ []) := by
  constructor
  · decide
  · rintro (h | h | h | ⟨l, hl, hne⟩)
    · exact absurd h (by decide)
    · exact absurd h (by decide)
    · exact absurd h (by decide)
    · have hl' : l = [] := by
        have : (some [] : Option (List String)) = some l := hl
        simpa using this.symm
      exact hne hl'

/-- C7 amended: the filter keeps a resolved item iff its id is one of
1, 41, 609, or its `components` field is present at all — a present-but-empty
list is JS-truthy and is kept too, so "non-empty" is not required. -/
theorem C7_filter_keeps_iff (env : Env) (pairs : List (Nat × Nat))
    (it : Item) :
    it ∈ filteredOf env pairs ↔
      it ∈ objectListOf env pairs ∧
        (it.id = 1 ∨ it.id = 41 ∨ it.id = 609 ∨ it.components.isSome) := by
  rw [filteredOf, List.mem_filter, itemFilter]
  simp
  intro _
  tauto

/-- C4 counterexample: for a hero whose 8 bracket pick counters are all 0,
`WinRate` silently computes `0 / 0` and formats it — the non-numeric `NaN`
output — with no `NoData` condition anywhere in the code. -/
theorem C4_zero_picks_counterexample :
    sumPicks zeroHero = 0 ∧ WinRate zeroHero = FixedOutput.nan := by
  constructor
  · decide
  · decide

/-- C4 amended: with 0 total picks, `WinRate` silently produces the
non-numeric JS value — `NaN` when total wins are 0 (the only case possible
under the per-bracket win ≤ pick invariant), `Infinity` otherwise — instead
of any reported `NoData` condition. -/
theorem C4_zero_picks_nonnumeric (h : Hero) (h0 : sumPicks h = 0) :
    WinRate h =
      (if sumWins h = 0 then FixedOutput.nan else FixedOutput.infinity) := by
  rw [WinRate, if_pos h0]

/-- Witness for `C4_zero_picks_nonnumeric` at the all-zero hero. -/
theorem C4_zero_picks_nonnumeric_witness :
    sumPicks zeroHero = 0 ∧
    WinRate zeroHero =
      (if sumWins zeroHero = 0 then FixedOutput.nan
       else FixedOutput.infinity) :=
  ⟨by decide, C4_zero_picks_nonnumeric zeroHero (by decide)⟩

/-- C3: the random index scheme is NOT always a valid position.
`RandomIntFromInterval(0, HERO_STATS.length)` is inclusive of its upper
bound, so on a 1-hero roster, with `Math.random() = 1/2`, the produced index
equals the roster length and the read runs past the end (`undefined`). -/
theorem C3_random_index_past_end :
    RandomHeroIndex [axeHero] (1 / 2) = (([axeHero] : List Hero).length : ℤ) ∧
    RandomHeroTarget [axeHero] (1 / 2) = none := by
  have hidx : RandomHeroIndex [axeHero] (1 / 2) = 1 := by
    simp only [RandomHeroIndex, RandomIntFromInterval]
    norm_num
  constructor
  · rw [hidx]
    rfl
  · simp only [RandomHeroTarget, hidx]
    rfl

/-- C1: when the unfiltered resolvable pool of a phase has at least 5
members, the per-phase output (`MostBought` then `slice(0,5)`) has exactly 5
entries and every entry is an actual item record; its initial segment of the
filtered sequence's length is exactly the filtered sequence (annotated with
its purchase counts), that annotated sequence is descending by purchase
count, and entries of equal count keep the iteration order of the source
mapping (stability of the sort). -/
theorem C1_top5_descending (env : Env) (pairs : List (Nat × Nat))
    (h5 : 5 ≤ (objectListOf env pairs).length) :
    (MostBoughtPhase env pairs).length = 5 ∧
    (∀ x ∈ MostBoughtPhase env pairs, x.isSome) ∧
    (MostBoughtPhase env pairs).take (filteredOf env pairs).length =
      ((filteredPairs env pairs).map (fun q => some q.2)).take 5 ∧
    (filteredPairs env pairs).Pairwise (fun a b => b.1.2 ≤ a.1.2) ∧
    (∀ c : Nat, (SortItems pairs).filter (fun q => q.2 == c) =
      pairs.filter (fun q => q.2 == c)) := by
  have hmap : (filteredPairs env pairs).map (fun q => some q.2) =
      (filteredOf env pairs).map some := by
    rw [← filteredPairs_map_snd env pairs, List.map_map]
    rfl
  refine ⟨?_, ?_, ?_, filteredPairs_pairwise env pairs,
    fun c => SortItems_stable pairs c⟩
  · rw [MostBoughtPhase, MostBought_closed, List.length_take]
    simp only [List.length_append, List.length_map, List.length_range]
    omega
  · intro x hx
    rw [MostBoughtPhase, MostBought_closed] at hx
    have hx' := List.mem_of_mem_take hx
    rcases List.mem_append.1 hx' with hxa | hxb
    · rcases List.mem_map.1 hxa with ⟨y, _, rfl⟩
      rfl
    · rcases List.mem_map.1 hxb with ⟨k, hk, rfl⟩
      have hk5 : k < 5 := by
        have := List.mem_range.1 hk
        omega
      have hklt : k < (objectListOf env pairs).length := by omega
      rw [List.get?_eq_get hklt]
      rfl
  · rw [MostBoughtPhase, MostBought_closed, List.take_take, hmap]
    by_cases hle : (filteredOf env pairs).length ≤ 5
    · have hmin : min (filteredOf env pairs).length 5 =
          (filteredOf env pairs).length := by omega
      rw [hmin,
        List.take_append_of_le_length (by simp),
        List.take_of_length_le (by simp),
        List.take_of_length_le (by simp [hle])]
    · have hmin : min (filteredOf env pairs).length 5 = 5 := by omega
      rw [hmin, List.take_append_of_le_length (by simp; omega)]

/-- Witness for `C1_top5_descending` on a concrete 5-member pool. -/
theorem C1_top5_descending_witness :
    5 ≤ (objectListOf env1 pairs1).length ∧
    ((MostBoughtPhase env1 pairs1).length = 5 ∧
      (∀ x ∈ MostBoughtPhase env1 pairs1, x.isSome) ∧
      (MostBoughtPhase env1 pairs1).take (filteredOf env1 pairs1).length =
        ((filteredPairs env1 pairs1).map (fun q => some q.2)).take 5 ∧
      (filteredPairs env1 pairs1).Pairwise (fun a b => b.1.2 ≤ a.1.2) ∧
      (∀ c : Nat, (SortItems pairs1).filter (fun q => q.2 == c) =
        pairs1.filter (fun q => q.2 == c))) :=
  ⟨by decide, C1_top5_descending env1 pairs1 (by decide)⟩

/-- C10: with an unfiltered resolvable pool of fewer than 5 members the
padding loop still terminates: `MostBought` returns at least 5 entries and
the sliced per-phase list has exactly 5; positions at or beyond
(filtered length + pool length) hold the absent value `none` (`undefined`),
and every `some` entry is a pool member — there is no short list and no
`InsufficientData` signal. -/
theorem C10_small_pool_pads_undefined (env : Env) (pairs : List (Nat × Nat))
    (hlt : (objectListOf env pairs).length < 5) :
    5 ≤ (MostBought env pairs).length ∧
    (MostBoughtPhase env pairs).length = 5 ∧
    (∀ j, (filteredOf env pairs).length + (objectListOf env pairs).length ≤ j →
      j < 5 → (MostBoughtPhase env pairs).get? j = some none) ∧
    (∀ x : Item, some x ∈ MostBoughtPhase env pairs →
      x ∈ objectListOf env pairs) := by
  have hL : (filteredOf env pairs).length ≤ (objectListOf env pairs).length :=
    filteredOf_length_le env pairs
  have hlen : (MostBought env pairs).length = 5 := by
    rw [MostBought_closed]
    simp only [List.length_append, List.length_map, List.length_range]
    omega
  refine ⟨by omega, ?_, ?_, ?_⟩
  · rw [MostBoughtPhase, List.length_take, hlen]
    omega
  · intro j hj hj5
    rw [MostBoughtPhase, List.get?_take hj5, MostBought_closed,
      List.get?_append_right (by simp; omega)]
    simp only [List.length_map]
    rw [List.get?_map, List.get?_range (by omega)]
    simp only [Option.map_some', Option.some.injEq]
    rw [List.get?_eq_none]
    omega
  · intro x hx
    have hx' := List.mem_of_mem_take hx
    rw [MostBought_closed] at hx'
    rcases List.mem_append.1 hx' with hxa | hxb
    · rcases List.mem_map.1 hxa with ⟨y, hy, hyx⟩
      have : y = x := by simpa using hyx
      subst this
      exact List.mem_of_mem_filter hy
    · rcases List.mem_map.1 hxb with ⟨k, _, hkx⟩
      exact List.get?_mem hkx

/-- Witness for `C10_small_pool_pads_undefined` on the 2-member pool. -/
theorem C10_small_pool_pads_undefined_witness :
    (objectListOf env0 pairs0).length < 5 ∧
    (5 ≤ (MostBought env0 pairs0).length ∧
      (MostBoughtPhase env0 pairs0).length = 5 ∧
      (∀ j, (filteredOf env0 pairs0).length + (objectListOf env0 pairs0).length ≤ j →
        j < 5 → (MostBoughtPhase env0 pairs0).get? j = some none) ∧
      (∀ x : Item, some x ∈ MostBoughtPhase env0 pairs0 →
        x ∈ objectListOf env0 pairs0)) :=
  ⟨by decide, C10_small_pool_pads_undefined env0 pairs0 (by decide)⟩

/-- C5: for any query other than "io", `GetHero` is first-match search over
the roster with the substring test (case-insensitive on the localized name,
prefix-stripped on the internal name), and returns the not-found signal
`none` exactly when no roster entry matches. -/
theorem C5_resolver_first_match (query : String) (stats : List Hero)
    (hq : query ≠ "io") :
    GetHero query stats = stats.find? (fun h => heroMatches query h) ∧
    (GetHero query stats = none ↔
      ∀ h ∈ stats, ¬ heroMatches query h) := by
  have hbeq : (query == "io") = false := by
    simpa using hq
  have heq : ∀ l : List Hero,
      GetHero query l = l.find? (fun h => heroMatches query h) := by
    intro l
    induction l with
    | nil => rfl
    | cons hero rest ih =>
      rw [List.find?_cons]
      simp only [GetHero, hbeq, Bool.false_and, if_false, ih]
      by_cases hm : heroMatches query hero <;> simp [hm]
  refine ⟨heq stats, ?_⟩
  rw [heq stats, List.find?_eq_none]

/-- Witness for `C5_resolver_first_match` with the query "axe". -/
theorem C5_resolver_first_match_witness :
    ("axe" : String) ≠ "io" ∧
    (GetHero "axe" sampleRoster =
        sampleRoster.find? (fun h => heroMatches "axe" h) ∧
      (GetHero "axe" sampleRoster = none ↔
        ∀ h ∈ sampleRoster, ¬ heroMatches "axe" h)) :=
  ⟨by decide, C5_resolver_first_match "axe" sampleRoster (by decide)⟩

/-- C6: a hero returned for the query "io" always has the localized name
"io" up to case — heroes merely containing "io" in a name are skipped by
the hard-coded edge case. -/
theorem C6_io_exact_only :
    ∀ (stats : List Hero) (hero : Hero),
      GetHero "io" stats = some hero → toLowerStr hero.localized_name = "io"
  | [], hero, hfound => by simp [GetHero] at hfound
  | h :: rest, hero, hfound => by
    rw [GetHero] at hfound
    by_cases hskip :
        (("io" : String) == "io" && toLowerStr h.localized_name != "io") = true
    · rw [if_pos hskip] at hfound
      exact C6_io_exact_only rest hero hfound
    · rw [if_neg hskip] at hfound
      have hio : toLowerStr h.localized_name = "io" := by
        simpa using hskip
      by_cases hm : heroMatches "io" h
      · rw [if_pos hm] at hfound
        injection hfound with hh
        rw [← hh]
        exact hio
      · rw [if_neg hm] at hfound
        exact C6_io_exact_only rest hero hfound

/-- Witness for `C6_io_exact_only`: on the sample roster, "io" resolves to
the hero actually named Io, skipping Gyrocopter. -/
theorem C6_io_exact_only_witness :
    GetHero "io" sampleRoster = some ioHero ∧
    toLowerStr ioHero.localized_name = "io" :=
  ⟨rfl, C6_io_exact_only sampleRoster ioHero rfl⟩

/-- C8: with positive total picks, `WinRate` sums the 8 bracket counters and
returns `100 * totalWins / totalPicks` rounded to 2 decimal places (as the
integer count of hundredths). -/
theorem C8_winrate_formula (h : Hero) (hp : 0 < sumPicks h) :
    WinRate h =
      FixedOutput.fixed
        (toFixed2 (100 * (sumWins h : ℚ) / (sumPicks h : ℚ))) := by
  rw [WinRate, if_neg (by omega)]
  congr 1
  congr 1
  ring

/-- Witness for `C8_winrate_formula`: 1000 picks and 530 wins give 53.00
(5300 hundredths), the spec's Anti-Mage scenario. -/
theorem C8_winrate_formula_witness :
    0 < sumPicks axeHero ∧ WinRate axeHero = FixedOutput.fixed 5300 := by
  constructor
  · decide
  · rw [C8_winrate_formula axeHero (by decide)]
    have hw : sumWins axeHero = 530 := by decide
    have hp : sumPicks axeHero = 1000 := by decide
    rw [hw, hp, toFixed2]
    norm_num

/-- C9: an input that is empty after lower-casing and trimming makes
`SearchHero` run exactly the `RandomHero` computation. -/
theorem C9_empty_query_is_random (input : String) (stats : List Hero) (r : ℚ)
    (he : trimStr (toLowerStr input) = "") :
    SearchHero input stats r = RandomHero stats r := by
  rw [SearchHero]
  simp [he]

/-- Witness for `C9_empty_query_is_random` on a whitespace-only input. -/
theorem C9_empty_query_is_random_witness :
    trimStr (toLowerStr " ") = "" ∧
    SearchHero " " sampleRoster 0 = RandomHero sampleRoster 0 :=
  ⟨by decide, C9_empty_query_is_random " " sampleRoster 0 (by decide)⟩

end DotaSnapshot
